import Mathlib

/-
Verification of the rock-paper-scissors correspondence-game framework.

The development shallowly embeds the framework's core modules:
  - config data model and validation   (framework/core/config/types.ts, loader.ts)
  - turn engine                        (framework/core/engine/turnEngine.ts)
  - payoff engine                      (framework/core/engine/payoffEngine.ts)
  - HMAC signing of URL tokens        (framework/storage/hmacManager.ts)
  - AES/LZ state codec                 (framework/storage/encryption.ts)
  - generated game-state schema bounds (framework/core/schemas/schemaGenerator.ts)
  - application game-state transitions (App.tsx)

External library primitives (CryptoJS HMAC-SHA256 and AES, LZString, JSON,
base64) are not part of the repository; they appear as explicit function
parameters, and theorems that depend on their behaviour take that behaviour
as hypotheses (e.g. that decompression inverts compression, or that the
hex-encoded HMAC output contains no '.').
-/

namespace RPS

/-- Choice option: framework/core/config/types.ts, interface ChoiceOption. -/
structure ChoiceOption where
  id : String
  label : String
  description : Option String
  icon : Option String
deriving DecidableEq, Repr

/-- Payoff rule condition: types.ts, PayoffRule.condition. -/
structure PayoffCondition where
  player1 : String
  player2 : String
deriving DecidableEq, Repr

/-- Payoff rule outcome: types.ts, PayoffRule.outcome.  TS numbers carrying
scores are modelled as integers. -/
structure PayoffOutcome where
  player1 : Int
  player2 : Int
deriving DecidableEq, Repr

/-- Payoff rule: types.ts, interface PayoffRule. -/
structure PayoffRule where
  condition : PayoffCondition
  outcome : PayoffOutcome
  outcomeText : Option String
deriving DecidableEq, Repr

/-- Game metadata: types.ts, interface GameMetadata. -/
structure GameMetadata where
  id : String
  name : String
  description : String
  version : String
  rulesUrl : Option String
  tags : Option (List String)
deriving DecidableEq, Repr

/-- Game progression settings: types.ts, interface GameProgression.
`startingPlayer` has TS type `1 | 2`; it is modelled as a plain natural,
with the Zod union check made explicit in the structural validation. -/
structure GameProgression where
  totalRounds : Nat
  startingPlayer : Nat
  alternateStarter : Bool
  showRunningTotal : Bool
deriving DecidableEq, Repr

/-- UI customization: types.ts, interface GameUI. -/
structure GameUI where
  primaryColor : Option String
  secondaryColor : Option String
  cssClass : Option String
  showPayoffMatrix : Bool
  showChoiceDescriptions : Bool
  choiceMadeText : Option String
  resultsHeaderText : Option String
deriving DecidableEq, Repr

/-- Complete game configuration: types.ts, interface GameConfig. -/
structure GameConfig where
  metadata : GameMetadata
  choices : List ChoiceOption
  payoffRules : List PayoffRule
  progression : GameProgression
  ui : GameUI
deriving DecidableEq, Repr

/-! ## Turn engine (framework/core/engine/turnEngine.ts) -/

/-- JavaScript truthiness of a `string | undefined` value: `undefined` and
the empty string are falsy, every other string is truthy.  The turn engine
tests its choice arguments with `!choice`, so this is the predicate it
actually branches on. -/
def truthy : Option String → Bool
  | none => false
  | some s => !(s == "")

/-- turnEngine.ts, determineRoundStarter (lines 47-63). -/
def determineRoundStarter (config : GameConfig) (roundNumber : Nat) : Nat :=
  if !config.progression.alternateStarter then
    config.progression.startingPlayer
  else if roundNumber % 2 == 1 then
    config.progression.startingPlayer
  else if config.progression.startingPlayer == 1 then 2 else 1

/-- turnEngine.ts, isRoundComplete (lines 74-79): both choices present
(`!== undefined`), with no emptiness test. -/
def isRoundComplete (player1Choice player2Choice : Option String) : Bool :=
  player1Choice.isSome && player2Choice.isSome

/-- turnEngine.ts, isGameComplete (lines 92-98). -/
def isGameComplete (currentRound totalRounds : Nat) (roundComplete : Bool) : Bool :=
  currentRound == totalRounds && roundComplete

/-- turnEngine.ts, determineNextPlayer (lines 126-158).  The `!choice`
tests in the source are JavaScript truthiness tests, so a present empty
string counts as "no choice made" here. -/
def determineNextPlayer (config : GameConfig) (roundNumber : Nat)
    (player1Choice player2Choice : Option String) : Option Nat :=
  let starter := determineRoundStarter config roundNumber
  if !(truthy player1Choice) && !(truthy player2Choice) then
    some starter
  else
    let responder : Nat := if starter == 1 then 2 else 1
    let starterChoice := if starter == 1 then player1Choice else player2Choice
    let responderChoice := if responder == 1 then player1Choice else player2Choice
    if !(truthy starterChoice) then
      some starter
    else if !(truthy responderChoice) then
      some responder
    else
      none

/-! ## Payoff engine (framework/core/engine/payoffEngine.ts) -/

/-- payoffEngine.ts, class PayoffCalculationError. -/
structure PayoffCalculationError where
  message : String
  player1Choice : String
  player2Choice : String
deriving DecidableEq, Repr

/-- payoffEngine.ts, interface PayoffResult. -/
structure PayoffResult where
  player1Score : Int
  player2Score : Int
  outcomeText : Option String
  matchedRule : PayoffRule
deriving DecidableEq, Repr

/-- payoffEngine.ts, calculatePayoff (lines 371-416). -/
def calculatePayoff (config : GameConfig) (player1Choice player2Choice : String) :
    Except PayoffCalculationError PayoffResult :=
  let validChoiceIds := config.choices.map (fun c => c.id)
  if !(validChoiceIds.contains player1Choice) then
    .error ⟨"Invalid choice for player 1: \"" ++ player1Choice ++ "\"",
      player1Choice, player2Choice⟩
  else if !(validChoiceIds.contains player2Choice) then
    .error ⟨"Invalid choice for player 2: \"" ++ player2Choice ++ "\"",
      player1Choice, player2Choice⟩
  else
    match config.payoffRules.find? (fun rule =>
        rule.condition.player1 == player1Choice &&
        rule.condition.player2 == player2Choice) with
    | none =>
      .error ⟨"No payoff rule found for combination: player1=\"" ++ player1Choice ++
        "\", player2=\"" ++ player2Choice ++ "\"", player1Choice, player2Choice⟩
    | some matchedRule =>
      .ok ⟨matchedRule.outcome.player1, matchedRule.outcome.player2,
        matchedRule.outcomeText, matchedRule⟩

/-! ## Config validation (framework/core/config/loader.ts) -/

/-- types.ts, class ConfigValidationError: message, list of error strings,
optional config path. -/
structure ConfigValidationError where
  message : String
  errors : List String
  configPath : Option String
deriving DecidableEq, Repr

/-- Splits a character list on `'.'`, mirroring a split of the string on
dots; used for the semver regex check. -/
def splitDots : List Char → List (List Char)
  | [] => [[]]
  | x :: xs =>
    match splitDots xs with
    | [] => [[]]
    | h :: t => if x = '.' then [] :: h :: t else (x :: h) :: t

/-- Zod regex check from loader.ts line 66: version must match
the pattern digits dot digits dot digits. -/
def isSemver (s : String) : Bool :=
  let parts := splitDots s.data
  parts.length == 3 && parts.all (fun p => !p.isEmpty && p.all (fun ch => ch.isDigit))

/-- Zod regex check from loader.ts lines 85-86: a hash sign followed by
exactly six hexadecimal digits. -/
def isHexColor (s : String) : Bool :=
  match s.data with
  | '#' :: rest =>
    rest.length == 6 &&
      rest.all (fun ch => ch.isDigit || ('A' ≤ ch && ch ≤ 'F') || ('a' ≤ ch && ch ≤ 'f'))
  | _ => false

/-- Structural issues reported by `GameMetadataSchema` (loader.ts lines
62-69), with Zod's path-prefixed message format from loader.ts line 207.
The external `.url()` refinement on the optional `rulesUrl` is outside the
model; no claim depends on it. -/
def zodMetadataIssues (m : GameMetadata) : List String :=
  (if m.id = "" then ["metadata.id: Game ID cannot be empty"] else []) ++
  (if m.name = "" then ["metadata.name: Game name cannot be empty"] else []) ++
  (if m.description = "" then
    ["metadata.description: Game description cannot be empty"] else []) ++
  (if isSemver m.version then [] else
    ["metadata.version: Version must be semver format (e.g., 1.0.0)"])

/-- Structural issues for the choices array (`ChoiceOptionSchema` and the
`.min(2)` bound, loader.ts lines 32-37 and 105). -/
def zodChoicesIssues (choices : List ChoiceOption) : List String :=
  (if choices.length < 2 then ["choices: Must have at least 2 choices"] else []) ++
  choices.enum.flatMap (fun ic =>
    (if ic.2.id = "" then
      ["choices." ++ toString ic.1 ++ ".id: Choice ID cannot be empty"] else []) ++
    (if ic.2.label = "" then
      ["choices." ++ toString ic.1 ++ ".label: Choice label cannot be empty"] else []))

/-- Structural issues for the payoff rules array (`PayoffRuleSchema` and
the `.min(1)` bound, loader.ts lines 47-57 and 106). -/
def zodPayoffRulesIssues (rules : List PayoffRule) : List String :=
  (if rules.length < 1 then ["payoffRules: Must have at least 1 payoff rule"] else []) ++
  rules.enum.flatMap (fun ir =>
    (if ir.2.condition.player1 = "" then
      ["payoffRules." ++ toString ir.1 ++
        ".condition.player1: String must contain at least 1 character(s)"] else []) ++
    (if ir.2.condition.player2 = "" then
      ["payoffRules." ++ toString ir.1 ++
        ".condition.player2: String must contain at least 1 character(s)"] else []))

/-- Structural issues for progression (`GameProgressionSchema`, loader.ts
lines 74-79).  `totalRounds` is a natural here, so the `.int()` refinement
holds by typing; the union literal check on `startingPlayer` is explicit. -/
def zodProgressionIssues (p : GameProgression) : List String :=
  (if p.totalRounds < 1 then ["progression.totalRounds: Must have at least 1 round"] else []) ++
  (if p.startingPlayer = 1 ∨ p.startingPlayer = 2 then []
   else ["progression.startingPlayer: Invalid input"])

/-- Structural issues for ui (`GameUISchema`, loader.ts lines 84-92). -/
def zodUIIssues (ui : GameUI) : List String :=
  (match ui.primaryColor with
   | none => []
   | some c => if isHexColor c then [] else ["ui.primaryColor: Invalid"]) ++
  (match ui.secondaryColor with
   | none => []
   | some c => if isHexColor c then [] else ["ui.secondaryColor: Invalid"])

/-- Structural (Zod) validation of a whole document:
`GameConfigSchema.parse`, loader.ts lines 103-109, with the issue list a
ZodError would carry after the mapping on lines 206-208.  The untrusted
document is modelled at the typed shape, so type mismatches (a number where
a string belongs, missing keys) are outside the model; the schemas'
refinement checks are explicit. -/
def gameConfigSchemaIssues (config : GameConfig) : List String :=
  zodMetadataIssues config.metadata ++
  zodChoicesIssues config.choices ++
  zodPayoffRulesIssues config.payoffRules ++
  zodProgressionIssues config.progression ++
  zodUIIssues config.ui

/-- Message template for the payoff-table size error, loader.ts lines
155-158: it reports the expected and found counts only. -/
def payoffCountMessage (choiceCount found : Nat) : String :=
  "Expected " ++ toString (choiceCount * choiceCount) ++ " payoff rules (" ++
    toString choiceCount ++ " × " ++ toString choiceCount ++ "), but found " ++
    toString found ++ ". Every choice combination must have a payoff rule."

/-- Semantic validation error accumulation, loader.ts
validateGameConfigSemantics lines 122-160: one errors array filled by three
sequential passes (unknown choice ids, duplicate rules, payoff-table
size). -/
def semanticErrors (config : GameConfig) : List String :=
  let choiceIds := config.choices.map (fun c => c.id)
  let errors1 := config.payoffRules.foldl (fun errs rule =>
    let errs := if choiceIds.contains rule.condition.player1 then errs else
      errs ++ ["Payoff rule references unknown choice ID: \"" ++
        rule.condition.player1 ++ "\""]
    if choiceIds.contains rule.condition.player2 then errs else
      errs ++ ["Payoff rule references unknown choice ID: \"" ++
        rule.condition.player2 ++ "\""]) []
  let pass2 := config.payoffRules.foldl (fun (acc : List String × List String) rule =>
    let key := rule.condition.player1 ++ ":" ++ rule.condition.player2
    let errs := if acc.1.contains key then
        acc.2 ++ ["Duplicate payoff rule for combination: " ++ key]
      else acc.2
    (acc.1 ++ [key], errs)) ([], errors1)
  let errors2 := pass2.2
  if config.payoffRules.length ≠ config.choices.length * config.choices.length then
    errors2 ++ [payoffCountMessage config.choices.length config.payoffRules.length]
  else
    errors2

/-- Check class 2 in isolation: the unknown-choice-id errors contributed by
the first pass of validateGameConfigSemantics (loader.ts lines 128-140). -/
def unknownChoiceIdErrors (config : GameConfig) : List String :=
  let choiceIds := config.choices.map (fun c => c.id)
  config.payoffRules.flatMap (fun rule =>
    (if choiceIds.contains rule.condition.player1 then [] else
      ["Payoff rule references unknown choice ID: \"" ++ rule.condition.player1 ++ "\""]) ++
    (if choiceIds.contains rule.condition.player2 then [] else
      ["Payoff rule references unknown choice ID: \"" ++ rule.condition.player2 ++ "\""]))

/-- Check class 3 in isolation: the duplicate-rule errors contributed by
the second pass (loader.ts lines 143-150), threading the set of seen keys. -/
def duplicateErrorsAux (seen : List String) : List PayoffRule → List String
  | [] => []
  | rule :: rest =>
    let key := rule.condition.player1 ++ ":" ++ rule.condition.player2
    (if seen.contains key then ["Duplicate payoff rule for combination: " ++ key] else []) ++
      duplicateErrorsAux (seen ++ [key]) rest

/-- Check class 3 in isolation, starting from no seen keys. -/
def duplicateRuleErrors (config : GameConfig) : List String :=
  duplicateErrorsAux [] config.payoffRules

/-- Check class 4 in isolation: the payoff-table size error contributed by
the final check (loader.ts lines 152-159). -/
def payoffCountErrors (config : GameConfig) : List String :=
  if config.payoffRules.length ≠ config.choices.length * config.choices.length then
    [payoffCountMessage config.choices.length config.payoffRules.length]
  else
    []

/-- loader.ts, validateGameConfigSemantics (lines 122-167): throws a
ConfigValidationError carrying every accumulated semantic error. -/
def validateGameConfigSemantics (config : GameConfig) : Except ConfigValidationError Unit :=
  if semanticErrors config ≠ [] then
    .error ⟨"Game config semantic validation failed", semanticErrors config, none⟩
  else
    .ok ()

/-- loader.ts, loadGameConfig (lines 192-227): Zod validation first; on a
ZodError the issue list is wrapped in a ConfigValidationError and semantic
validation never runs; otherwise semantic validation errors are re-thrown
as they are.  The ConfigLoadError branch for non-Zod exceptions is
unreachable in this model because every modelled step is total. -/
def loadGameConfig (yamlData : GameConfig) (configPath : Option String) :
    Except ConfigValidationError GameConfig :=
  if gameConfigSchemaIssues yamlData ≠ [] then
    .error ⟨"Config validation failed: " ++ configPath.getD "unknown",
      gameConfigSchemaIssues yamlData, configPath⟩
  else
    match validateGameConfigSemantics yamlData with
    | .error e => .error e
    | .ok _ => .ok yamlData

/-! ## HMAC signing (framework/storage/hmacManager.ts)

The HMAC-SHA256 primitive comes from CryptoJS, outside the repository, so
every definition takes the keyed hash as an explicit `hmac` parameter
(the key `GAME_SECRET` is fixed inside it). -/

/-- hmacManager.ts, interface SignedData. -/
structure SignedData where
  data : String
  signature : String
deriving DecidableEq, Repr

/-- hmacManager.ts, class HMACError (only the message is observable in the
claims). -/
structure HMACError where
  message : String
deriving DecidableEq, Repr

/-- hmacManager.ts, generateHMAC (lines 72-82): hex-encoded HMAC-SHA256 of
the data under the fixed secret, abstracted as the `hmac` parameter. -/
def generateHMAC (hmac : String → String) (data : String) : String :=
  hmac data

/-- hmacManager.ts, verifyHMAC (lines 106-126): length check, then a
constant-time comparison folding bitwise-or of per-character xors. -/
def verifyHMAC (hmac : String → String) (data sig : String) : Bool :=
  let expected := generateHMAC hmac data
  if sig.length ≠ expected.length then
    false
  else
    ((sig.data.zip expected.data).foldl
      (fun result p => result ||| (p.1.toNat ^^^ p.2.toNat)) 0) == 0

/-- hmacManager.ts, signData (lines 143-146). -/
def signData (hmac : String → String) (data : String) : SignedData :=
  ⟨data, generateHMAC hmac data⟩

/-- hmacManager.ts, verifySignedData (lines 169-174). -/
def verifySignedData (hmac : String → String) (signed : SignedData) :
    Except HMACError String :=
  if !(verifyHMAC hmac signed.data signed.signature) then
    .error ⟨"HMAC signature verification failed - data may have been tampered with"⟩
  else
    .ok signed.data

/-- hmacManager.ts, encodeSignedData (lines 184-186). -/
def encodeSignedData (signed : SignedData) : String :=
  signed.data ++ "." ++ signed.signature

/-- Splitting a character list at its last `'.'`, mirroring
`encoded.lastIndexOf` plus the two substrings in decodeSignedData:
`none` when no dot occurs. -/
def splitAtLastDot : List Char → Option (List Char × List Char)
  | [] => none
  | x :: xs =>
    match splitAtLastDot xs with
    | some (d, s) => some (x :: d, s)
    | none => if x = '.' then some ([], xs) else none

/-- hmacManager.ts, decodeSignedData (lines 204-220). -/
def decodeSignedData (hmac : String → String) (encoded : String) :
    Except HMACError String :=
  match splitAtLastDot encoded.data with
  | none => .error ⟨"Invalid signed data format - missing signature separator"⟩
  | some (d, s) =>
    let data := String.mk d
    let sig := String.mk s
    if data == "" || sig == "" then
      .error ⟨"Invalid signed data format - empty data or signature"⟩
    else
      verifySignedData hmac ⟨data, sig⟩

/-- Failure of the documented decode-then-decrypt composition. -/
inductive DecodeFailure where
  | integrity : HMACError → DecodeFailure
  | decryption : String → DecodeFailure
deriving DecidableEq, Repr

/-- The decode pipeline prescribed by the hmacManager doc examples
(lines 157-166 and 195-202): decodeSignedData first, and decryption only on
its verified output.  Decryption is a parameter so that theorems can state
that a rejected token yields the same result for every decrypt function,
i.e. that decryption is never invoked on it. -/
def decodeThenDecrypt {α : Type} (hmac : String → String)
    (decrypt : String → Except String α) (encoded : String) :
    Except DecodeFailure α :=
  match decodeSignedData hmac encoded with
  | .error e => .error (.integrity e)
  | .ok d =>
    match decrypt d with
    | .error e => .error (.decryption e)
    | .ok v => .ok v

/-! ## State codec (framework/storage/encryption.ts)

JSON, LZString compression, CryptoJS AES and base64 are external library
primitives; they are explicit parameters here, with decompression and JSON
parsing returning `Option` for their failure modes. -/

/-- encryption.ts, encryptGameState (lines 13-23): stringify, compress,
encrypt, base64-encode.  The catch-and-rethrow wrapper never fires because
the modelled primitives are total. -/
def encryptGameState {α : Type} (stringify : α → String) (compress : String → String)
    (aesEncrypt : String → String) (btoa : String → String) (gameState : α) : String :=
  btoa (aesEncrypt (compress (stringify gameState)))

/-- encryption.ts, decryptGameState (lines 28-47): base64-decode, decrypt,
decompress, parse, in that order, with the source's emptiness guards; every
failure is funnelled by the catch block into the single message
"Failed to decrypt game state". -/
def decryptGameState {α : Type} (parse : String → Option α)
    (decompress : String → Option String) (aesDecrypt : String → String)
    (atob : String → String) (encoded : String) : Except String α :=
  let encrypted := atob encoded
  let decrypted := aesDecrypt encrypted
  if decrypted == "" then
    .error "Failed to decrypt game state"
  else
    match decompress decrypted with
    | none => .error "Failed to decrypt game state"
    | some json =>
      if json == "" then
        .error "Failed to decrypt game state"
      else
        match parse json with
        | none => .error "Failed to decrypt game state"
        | some v => .ok v

/-! ## Generated game-state schema (framework/core/schemas/schemaGenerator.ts) -/

/-- The round-bounds check of the generated game-state schema,
schemaGenerator.ts lines 107-111: `z.number().int().min(1).max(totalRounds)`
applied to the decoded snapshot's currentRound.  The argument is an integer,
so the `.int()` refinement holds by typing. -/
def currentRoundCheck (config : GameConfig) (currentRound : Int) : Bool :=
  1 ≤ currentRound && currentRound ≤ (config.progression.totalRounds : Int)

/-! ## Application game state and transitions (App.tsx) -/

/-- One completed round as stored in App.tsx's GameState.rounds. -/
structure RoundRecord where
  player1Choice : String
  player2Choice : String
  player1Score : Int
  player2Score : Int
deriving DecidableEq, Repr

/-- App.tsx, interface GameState (lines 18-31). -/
structure GameState where
  gameId : String
  currentRound : Nat
  player1Choice : Option String
  player2Choice : Option String
  player1Total : Int
  player2Total : Int
  rounds : List RoundRecord
deriving DecidableEq, Repr

/-- App.tsx, startNewGame (lines 64-78): fresh state with zero totals and
empty history.  The generated uuid is a parameter. -/
def startNewGame (gameId : String) : GameState :=
  { gameId := gameId, currentRound := 1, player1Choice := none,
    player2Choice := none, player1Total := 0, player2Total := 0, rounds := [] }

/-- App.tsx, makeChoice (lines 80-117): record the choice; when both
choices are truthy, look up the payoff, append the round and add the scores
to the totals, then advance the round while rounds remain.  A throw from
calculatePayoff aborts the update (the error propagates before
setGameState runs). -/
def makeChoice (config : GameConfig) (st : GameState) (playerNum : Nat)
    (choiceId : String) : Except PayoffCalculationError GameState :=
  let newState :=
    if playerNum == 1 then { st with player1Choice := some choiceId }
    else { st with player2Choice := some choiceId }
  if truthy newState.player1Choice && truthy newState.player2Choice then
    let c1 := newState.player1Choice.getD ""
    let c2 := newState.player2Choice.getD ""
    match calculatePayoff config c1 c2 with
    | .error e => .error e
    | .ok payoff =>
      let withRound := { newState with
        rounds := newState.rounds ++
          [⟨c1, c2, payoff.player1Score, payoff.player2Score⟩],
        player1Total := newState.player1Total + payoff.player1Score,
        player2Total := newState.player2Total + payoff.player2Score }
      if withRound.currentRound < config.progression.totalRounds then
        .ok { withRound with
          currentRound := withRound.currentRound + 1
          player1Choice := none
          player2Choice := none }
      else
        .ok withRound
  else
    .ok newState

/-- Applies a sequence of (player, choiceId) actions; a thrown payoff error
leaves the state unchanged, exactly as an exception escaping the React
callback would. -/
def applyMoves (config : GameConfig) (st : GameState) :
    List (Nat × String) → GameState
  | [] => st
  | (p, c) :: rest =>
    match makeChoice config st p c with
    | .error _ => applyMoves config st rest
    | .ok st2 => applyMoves config st2 rest

/-- The running-totals invariant from the data model: each total equals the
sum of the corresponding per-round scores over the history. -/
def totalsInvariant (st : GameState) : Prop :=
  st.player1Total = (st.rounds.map (fun r => r.player1Score)).sum ∧
  st.player2Total = (st.rounds.map (fun r => r.player2Score)).sum

/-! ## Concrete sample data used by witnesses and counterexamples -/

/-- A zero-sum three-choice rock-paper-scissors configuration in the shape
of games/configs/rock-paper-scissors.yaml. -/
def rpsConfig : GameConfig :=
  { metadata := ⟨"rock-paper-scissors", "Rock Paper Scissors",
      "Classic hand game", "1.0.0", none, none⟩
    choices := [⟨"rock", "Rock", none, none⟩, ⟨"paper", "Paper", none, none⟩,
      ⟨"scissors", "Scissors", none, none⟩]
    payoffRules := [
      ⟨⟨"rock", "rock"⟩, ⟨0, 0⟩, none⟩,
      ⟨⟨"rock", "paper"⟩, ⟨-1, 1⟩, none⟩,
      ⟨⟨"rock", "scissors"⟩, ⟨1, -1⟩, none⟩,
      ⟨⟨"paper", "rock"⟩, ⟨1, -1⟩, none⟩,
      ⟨⟨"paper", "paper"⟩, ⟨0, 0⟩, none⟩,
      ⟨⟨"paper", "scissors"⟩, ⟨-1, 1⟩, none⟩,
      ⟨⟨"scissors", "rock"⟩, ⟨-1, 1⟩, none⟩,
      ⟨⟨"scissors", "paper"⟩, ⟨1, -1⟩, none⟩,
      ⟨⟨"scissors", "scissors"⟩, ⟨0, 0⟩, none⟩]
    progression := ⟨3, 1, false, true⟩
    ui := ⟨none, none, none, true, true, none, none⟩ }

/-- A minimal valid two-choice configuration with a complete four-entry
payoff table. -/
def rpTwoConfig : GameConfig :=
  { metadata := ⟨"rp-two", "Rock Paper", "Two-choice game", "1.0.0", none, none⟩
    choices := [⟨"rock", "Rock", none, none⟩, ⟨"paper", "Paper", none, none⟩]
    payoffRules := [
      ⟨⟨"rock", "rock"⟩, ⟨0, 0⟩, none⟩,
      ⟨⟨"rock", "paper"⟩, ⟨-1, 1⟩, none⟩,
      ⟨⟨"paper", "rock"⟩, ⟨1, -1⟩, none⟩,
      ⟨⟨"paper", "paper"⟩, ⟨0, 0⟩, none⟩]
    progression := ⟨3, 1, false, true⟩
    ui := ⟨none, none, none, true, true, none, none⟩ }

/-- rpTwoConfig with the (rock, paper) payoff entry removed: three entries
remain for two choices. -/
def rpTwoMissing : GameConfig :=
  { rpTwoConfig with payoffRules := rpTwoConfig.payoffRules.eraseIdx 1 }

/-- A structurally invalid document (one choice where at least two are
required) that also violates the semantic checks: its two payoff rules are
duplicates of each other and the table size 2 differs from 1 squared. -/
def oneChoiceConfig : GameConfig :=
  { metadata := ⟨"solo", "Solo", "One-choice game", "1.0.0", none, none⟩
    choices := [⟨"rock", "Rock", none, none⟩]
    payoffRules := [
      ⟨⟨"rock", "rock"⟩, ⟨0, 0⟩, none⟩,
      ⟨⟨"rock", "rock"⟩, ⟨0, 0⟩, none⟩]
    progression := ⟨3, 1, false, true⟩
    ui := ⟨none, none, none, true, true, none, none⟩ }

/-- A concrete stand-in for the hex-encoded HMAC-SHA256: a fixed letter
followed by the input length; its output never contains a dot and is never
empty, and it is injective on inputs of distinct lengths. -/
def hexStub (s : String) : String :=
  "h" ++ toString s.data.length

/-- Substring test on character lists, used to state that an error message
does not mention a choice id. -/
def hasSubstr (pat : List Char) : List Char → Bool
  | [] => pat.isEmpty
  | x :: xs => List.isPrefixOf pat (x :: xs) || hasSubstr pat xs

/-! ## Helper lemmas -/

theorem nat_or_eq_zero_iff (a b : Nat) : a ||| b = 0 ↔ a = 0 ∧ b = 0 := by
  constructor
  · intro h
    have ha : a = 0 := by
      apply Nat.eq_of_testBit_eq
      intro i
      have hb := congrArg (fun n => n.testBit i) h
      simp only [Nat.testBit_or] at hb
      simp only [Nat.zero_testBit]
      cases hx : a.testBit i <;> simp_all
    have hb : b = 0 := by
      apply Nat.eq_of_testBit_eq
      intro i
      have hb := congrArg (fun n => n.testBit i) h
      simp only [Nat.testBit_or] at hb
      simp only [Nat.zero_testBit]
      cases hx : b.testBit i <;> simp_all
    exact ⟨ha, hb⟩
  · rintro ⟨rfl, rfl⟩
    rfl

theorem char_toNat_inj {c d : Char} (h : c.toNat = d.toNat) : c = d := by
  apply Char.eq_of_val_eq
  exact UInt32.toNat.inj h

theorem foldl_or_xor_eq_zero (l : List (Char × Char)) (a : Nat) :
    (l.foldl (fun result p => result ||| (p.1.toNat ^^^ p.2.toNat)) a = 0) ↔
      (a = 0 ∧ ∀ p ∈ l, p.1 = p.2) := by
  induction l generalizing a with
  | nil => simp
  | cons x xs ih =>
    simp only [List.foldl_cons, ih, nat_or_eq_zero_iff, List.mem_cons]
    constructor
    · rintro ⟨⟨ha, hx⟩, hxs⟩
      refine ⟨ha, ?_⟩
      rintro p (rfl | hp)
      · exact char_toNat_inj (Nat.xor_eq_zero.mp hx)
      · exact hxs p hp
    · rintro ⟨ha, hall⟩
      refine ⟨⟨ha, Nat.xor_eq_zero.mpr (congrArg Char.toNat (hall x (Or.inl rfl)))⟩, ?_⟩
      intro p hp
      exact hall p (Or.inr hp)

theorem zip_pointwise_eq (l1 : List Char) :
    ∀ l2 : List Char, l1.length = l2.length →
      ((∀ p ∈ l1.zip l2, p.1 = p.2) ↔ l1 = l2) := by
  induction l1 with
  | nil =>
    intro l2 hlen
    cases l2 with
    | nil => simp
    | cons y ys => simp at hlen
  | cons x xs ih =>
    intro l2 hlen
    cases l2 with
    | nil => simp at hlen
    | cons y ys =>
      simp only [List.zip_cons_cons, List.mem_cons, List.cons.injEq]
      have hlen' : xs.length = ys.length := by
        simpa using hlen
      constructor
      · intro hall
        refine ⟨hall (x, y) (Or.inl rfl), ?_⟩
        exact (ih ys hlen').mp (fun p hp => hall p (Or.inr hp))
      · rintro ⟨rfl, rfl⟩
        rintro p (rfl | hp)
        · rfl
        · exact ((ih xs rfl).mpr rfl) p hp

theorem string_data_inj {a b : String} (h : a.data = b.data) : a = b := by
  cases a
  cases b
  exact congrArg String.mk h

/-- verifyHMAC succeeds exactly when the supplied signature equals the
recomputed HMAC of the data. -/
theorem verifyHMAC_eq_true_iff (hmac : String → String) (data sig : String) :
    verifyHMAC hmac data sig = true ↔ sig = hmac data := by
  unfold verifyHMAC generateHMAC
  by_cases hlen : sig.length = (hmac data).length
  · simp only [hlen, ne_eq, not_true_eq_false, if_false, beq_iff_eq]
    rw [foldl_or_xor_eq_zero]
    have hlen' : sig.data.length = (hmac data).data.length := hlen
    rw [zip_pointwise_eq sig.data (hmac data).data hlen']
    constructor
    · rintro ⟨-, h⟩
      exact string_data_inj h
    · rintro rfl
      exact ⟨rfl, rfl⟩
  · simp only [hlen, ne_eq, not_false_eq_true, if_true]
    constructor
    · intro h
      simp at h
    · rintro rfl
      exact absurd rfl hlen

theorem splitAtLastDot_eq_none {l : List Char} (h : '.' ∉ l) :
    splitAtLastDot l = none := by
  induction l with
  | nil => rfl
  | cons x xs ih =>
    have hx : x ≠ '.' := fun hc => h (hc ▸ List.mem_cons_self x xs)
    have hxs : '.' ∉ xs := fun hc => h (List.mem_cons_of_mem x hc)
    simp [splitAtLastDot, ih hxs, hx]

/-- When the signature half contains no dot, the decoder's split on the
last dot recovers the two halves, whatever the data half contains. -/
theorem splitAtLastDot_append (d s : List Char) (hs : '.' ∉ s) :
    splitAtLastDot (d ++ '.' :: s) = some (d, s) := by
  induction d with
  | nil => simp [splitAtLastDot, splitAtLastDot_eq_none hs]
  | cons x xs ih => simp [splitAtLastDot, ih]

theorem string_append_data (a b : String) : (a ++ b).data = a.data ++ b.data := rfl

instance {E A : Type} [DecidableEq E] [DecidableEq A] : DecidableEq (Except E A) :=
  fun a b =>
    match a, b with
    | .error e1, .error e2 =>
      if h : e1 = e2 then isTrue (by rw [h])
      else isFalse (by intro hc; injection hc; contradiction)
    | .error _, .ok _ => isFalse (by intro hc; exact Except.noConfusion hc)
    | .ok _, .error _ => isFalse (by intro hc; exact Except.noConfusion hc)
    | .ok v1, .ok v2 =>
      if h : v1 = v2 then isTrue (by rw [h])
      else isFalse (by intro hc; injection hc; contradiction)

/-- decodeSignedData rejects with the verification-failure error whenever a
well-separated token carries a signature different from the recomputed
HMAC of its data half. -/
theorem decodeSignedData_bad_sig (hmac : String → String) (d s : List Char)
    (hd : d ≠ []) (hs : s ≠ []) (hdot : '.' ∉ s)
    (hbad : String.mk s ≠ hmac (String.mk d)) :
    decodeSignedData hmac (String.mk (d ++ '.' :: s)) =
      .error ⟨"HMAC signature verification failed - data may have been tampered with"⟩ := by
  unfold decodeSignedData
  simp only [splitAtLastDot_append d s hdot]
  have hd' : (String.mk d == "") = false := by
    simp only [beq_eq_false_iff_ne, ne_eq]
    intro hc
    exact hd (congrArg String.data hc)
  have hs' : (String.mk s == "") = false := by
    simp only [beq_eq_false_iff_ne, ne_eq]
    intro hc
    exact hs (congrArg String.data hc)
  simp only [hd', hs', Bool.or_self, Bool.false_or, if_false]
  unfold verifySignedData
  have hv : verifyHMAC hmac (String.mk d) (String.mk s) = false := by
    cases hveq : verifyHMAC hmac (String.mk d) (String.mk s) with
    | false => rfl
    | true => exact absurd ((verifyHMAC_eq_true_iff hmac (String.mk d) (String.mk s)).mp hveq) hbad
  simp [hv]

/-- decodeSignedData rejects a token whose last character is the separator
dot with the malformed empty-signature error: the split at that dot leaves
an empty signature half, so the guard fires before any HMAC check. -/
theorem decodeSignedData_empty_sig (hmac : String → String) (l : List Char) :
    decodeSignedData hmac (String.mk (l ++ ['.'])) =
      .error ⟨"Invalid signed data format - empty data or signature"⟩ := by
  unfold decodeSignedData
  have hdata : (String.mk (l ++ ['.'])).data = l ++ '.' :: [] := rfl
  rw [hdata, splitAtLastDot_append l [] (by simp)]
  simp

/-- rpsConfig with starter alternation switched on. -/
def altStarterConfig : GameConfig :=
  { rpsConfig with progression := ⟨3, 1, true, true⟩ }

theorem truthy_iff (p : Option String) :
    truthy p = true ↔ (p ≠ none ∧ p ≠ some "") := by
  rcases p with _ | s
  · simp [truthy]
  · simp [truthy]

theorem determineNextPlayer_eq_none_iff (config : GameConfig) (r : Nat)
    (p1 p2 : Option String) :
    determineNextPlayer config r p1 p2 = none ↔
      (truthy p1 = true ∧ truthy p2 = true) := by
  unfold determineNextPlayer
  by_cases h1 : truthy p1 <;> by_cases h2 : truthy p2 <;>
    by_cases hst : (determineRoundStarter config r == 1) = true <;>
    simp [h1, h2, hst]

/-- Claim C6: determineRoundStarter returns the configured starting player
for every round when alternateStarter is false, and alternates when it is
true: the starting player on odd rounds (1-indexed) and the opposite
player on even rounds. -/
theorem roundStarter_alternation (config : GameConfig) (r : Nat) :
    (config.progression.alternateStarter = false →
      determineRoundStarter config r = config.progression.startingPlayer)
    ∧ (config.progression.alternateStarter = true → r % 2 = 1 →
      determineRoundStarter config r = config.progression.startingPlayer)
    ∧ (config.progression.alternateStarter = true → r % 2 = 0 →
      determineRoundStarter config r =
        (if config.progression.startingPlayer = 1 then 2 else 1)) := by
  refine ⟨?_, ?_, ?_⟩
  · intro h
    simp [determineRoundStarter, h]
  · intro h hr
    simp [determineRoundStarter, h, hr]
  · intro h hr
    simp [determineRoundStarter, h, hr]

/-- Witness for roundStarter_alternation: with alternation the starter
pattern begins 1, 2, and without alternation round 5 still starts with
player 1. -/
theorem roundStarter_alternation_witness :
    determineRoundStarter altStarterConfig 1 = 1
    ∧ determineRoundStarter altStarterConfig 2 = 2
    ∧ determineRoundStarter rpsConfig 5 = 1 := by
  refine ⟨?_, ?_, ?_⟩
  · exact (roundStarter_alternation altStarterConfig 1).2.1 rfl rfl
  · simpa using (roundStarter_alternation altStarterConfig 2).2.2 rfl rfl
  · exact (roundStarter_alternation rpsConfig 5).1 rfl

/-- Claim C5: determineNextPlayer returns the round starter when neither
choice is set, the responder when only the starter's choice is set, and
none when both are set; in particular, a fresh round whose starter is
player 2 with only player2Choice set routes to player 1.  Choices here are
either absent or non-empty ids, matching what "set" means in the claim. -/
theorem nextPlayer_routes_by_round_starter (config : GameConfig)
    (roundNumber : Nat) (p1 p2 : Option String)
    (h1 : p1 ≠ some "") (h2 : p2 ≠ some "") :
    (p1 = none → p2 = none →
      determineNextPlayer config roundNumber p1 p2 =
        some (determineRoundStarter config roundNumber))
    ∧ (determineRoundStarter config roundNumber = 1 → p1 ≠ none → p2 = none →
      determineNextPlayer config roundNumber p1 p2 = some 2)
    ∧ (determineRoundStarter config roundNumber = 2 → p2 ≠ none → p1 = none →
      determineNextPlayer config roundNumber p1 p2 = some 1)
    ∧ (p1 ≠ none → p2 ≠ none →
      determineNextPlayer config roundNumber p1 p2 = none) := by
  refine ⟨?_, ?_, ?_, ?_⟩
  · rintro rfl rfl
    simp [determineNextPlayer, truthy]
  · intro hst hp1 hp2
    subst hp2
    rcases p1 with _ | s1
    · exact absurd rfl hp1
    · have hs1 : s1 ≠ "" := fun h => h1 (by rw [h])
      simp [determineNextPlayer, hst, truthy, hs1]
  · intro hst hp2 hp1
    subst hp1
    rcases p2 with _ | s2
    · exact absurd rfl hp2
    · have hs2 : s2 ≠ "" := fun h => h2 (by rw [h])
      simp [determineNextPlayer, hst, truthy, hs2]
  · intro hp1 hp2
    rcases p1 with _ | s1
    · exact absurd rfl hp1
    rcases p2 with _ | s2
    · exact absurd rfl hp2
    have hs1 : s1 ≠ "" := fun h => h1 (by rw [h])
    have hs2 : s2 ≠ "" := fun h => h2 (by rw [h])
    rw [determineNextPlayer_eq_none_iff]
    constructor <;> simp [truthy, hs1, hs2]

/-- Witness for nextPlayer_routes_by_round_starter: at a concrete config
whose round-2 starter is player 2 (alternation on), a round holding only
player2Choice routes to player 1, a fresh round routes to the starter, and
a full round routes to nobody. -/
theorem nextPlayer_routes_by_round_starter_witness :
    determineNextPlayer altStarterConfig 2 none (some "rock") = some 1
    ∧ determineNextPlayer rpsConfig 1 none none = some (determineRoundStarter rpsConfig 1)
    ∧ determineNextPlayer rpsConfig 1 (some "rock") (some "paper") = none := by
  refine ⟨?_, ?_, ?_⟩
  · exact (nextPlayer_routes_by_round_starter altStarterConfig 2 none (some "rock")
      (by decide) (by decide)).2.2.1 (by decide) (by decide) rfl
  · exact (nextPlayer_routes_by_round_starter rpsConfig 1 none none
      (by decide) (by decide)).1 rfl rfl
  · exact (nextPlayer_routes_by_round_starter rpsConfig 1 (some "rock") (some "paper")
      (by decide) (by decide)).2.2.2 (by decide) (by decide)

/-- Claim C10: determineNextPlayer returns none exactly when both choice
arguments are defined non-empty strings, while isRoundComplete is true
whenever both are defined — so with player1Choice the empty string and
player2Choice a valid id, isRoundComplete reports the round complete while
determineNextPlayer still returns a player. -/
theorem roundComplete_vs_nextPlayer_empty_string (config : GameConfig) (r : Nat)
    (p1 p2 : Option String) :
    (determineNextPlayer config r p1 p2 = none ↔
      (p1 ≠ none ∧ p1 ≠ some "" ∧ p2 ≠ none ∧ p2 ≠ some ""))
    ∧ (isRoundComplete p1 p2 = true ↔ (p1 ≠ none ∧ p2 ≠ none))
    ∧ (∀ s : String, s ≠ "" →
      isRoundComplete (some "") (some s) = true ∧
      determineNextPlayer config r (some "") (some s) ≠ none) := by
  refine ⟨?_, ?_, ?_⟩
  · rw [determineNextPlayer_eq_none_iff, truthy_iff, truthy_iff]
    tauto
  · rcases p1 with _ | s1 <;> rcases p2 with _ | s2 <;> simp [isRoundComplete]
  · intro s hs
    refine ⟨by simp [isRoundComplete], ?_⟩
    rw [ne_eq, determineNextPlayer_eq_none_iff]
    simp [truthy]

/-- Witness for roundComplete_vs_nextPlayer_empty_string: the disagreement
at player1Choice = "" and player2Choice = "rock". -/
theorem roundComplete_vs_nextPlayer_empty_string_witness :
    isRoundComplete (some "") (some "rock") = true
    ∧ determineNextPlayer rpsConfig 1 (some "") (some "rock") ≠ none :=
  (roundComplete_vs_nextPlayer_empty_string rpsConfig 1 (some "") (some "rock")).2.2
    "rock" (by decide)

/-- Claim C7 (amended): the generated schema's round-bounds check accepts
exactly the integers from 1 to totalRounds; in particular it rejects
totalRounds + 1, the value the spec reserves as the "finished" sentinel. -/
theorem currentRound_bounds_amended (config : GameConfig) (r : Int) :
    (currentRoundCheck config r = true ↔
      (1 ≤ r ∧ r ≤ (config.progression.totalRounds : Int)))
    ∧ currentRoundCheck config ((config.progression.totalRounds : Int) + 1) = false := by
  constructor
  · simp [currentRoundCheck]
  · simp only [currentRoundCheck, Bool.and_eq_false_iff, decide_eq_false_iff_not, not_le]
    right
    omega

/-- Counterexample to claim C7 as stated: for the three-round
configuration, the claim says currentRound = 4 = totalRounds + 1 passes the
schema's round-bounds check, but the check rejects it. -/
theorem currentRound_finished_sentinel_rejected :
    currentRoundCheck rpsConfig 4 = false := by decide

theorem makeChoice_preserves_totals (config : GameConfig) (st : GameState)
    (p : Nat) (c : String) (st2 : GameState)
    (h : makeChoice config st p c = .ok st2) (hinv : totalsInvariant st) :
    totalsInvariant st2 := by
  obtain ⟨hinv1, hinv2⟩ := hinv
  unfold makeChoice at h
  by_cases hp : (p == 1) = true <;>
    simp only [hp, if_true, if_false, Bool.false_eq_true] at h <;>
    split at h
  case pos.isTrue hcond =>
    rcases hpay : calculatePayoff config
        (({ st with player1Choice := some c } : GameState).player1Choice.getD "")
        (({ st with player1Choice := some c } : GameState).player2Choice.getD "") with e | pres
    · simp only [hpay] at h
      exact Except.noConfusion h
    · simp only [hpay] at h
      split at h <;>
      · injection h with h
        subst h
        refine ⟨?_, ?_⟩ <;>
          simp [totalsInvariant, hinv1, hinv2]
  case pos.isFalse hcond =>
    injection h with h
    subst h
    exact ⟨hinv1, hinv2⟩
  case neg.isTrue hcond =>
    rcases hpay : calculatePayoff config
        (({ st with player2Choice := some c } : GameState).player1Choice.getD "")
        (({ st with player2Choice := some c } : GameState).player2Choice.getD "") with e | pres
    · simp only [hpay] at h
      exact Except.noConfusion h
    · simp only [hpay] at h
      split at h <;>
      · injection h with h
        subst h
        refine ⟨?_, ?_⟩ <;>
          simp [totalsInvariant, hinv1, hinv2]
  case neg.isFalse hcond =>
    injection h with h
    subst h
    exact ⟨hinv1, hinv2⟩

theorem applyMoves_preserves_totals (config : GameConfig)
    (moves : List (Nat × String)) :
    ∀ st : GameState, totalsInvariant st →
      totalsInvariant (applyMoves config st moves) := by
  induction moves with
  | nil =>
    intro st h
    exact h
  | cons mv rest ih =>
    intro st h
    rcases mv with ⟨p, c⟩
    rcases hmc : makeChoice config st p c with e | st2
    · simpa [applyMoves, hmc] using ih st h
    · simpa [applyMoves, hmc] using
        ih st2 (makeChoice_preserves_totals config st p c st2 hmc h)

/-- Claim C8: starting from a fresh game (zero totals, empty history),
after any sequence of makeChoice transitions each player's running total
equals the sum of that player's per-round scores over the round history. -/
theorem totals_equal_history_sums (config : GameConfig) (gameId : String)
    (moves : List (Nat × String)) :
    (applyMoves config (startNewGame gameId) moves).player1Total =
      ((applyMoves config (startNewGame gameId) moves).rounds.map
        (fun r => r.player1Score)).sum
    ∧ (applyMoves config (startNewGame gameId) moves).player2Total =
      ((applyMoves config (startNewGame gameId) moves).rounds.map
        (fun r => r.player2Score)).sum :=
  applyMoves_preserves_totals config moves (startNewGame gameId) ⟨rfl, rfl⟩

/-- The sequentially accumulated semantic error list is exactly the
concatenation of the three check classes: unknown choice ids, duplicate
rules, table size.  Each class therefore contributes its errors whether or
not an earlier class already failed. -/
theorem semanticErrors_decomposition (config : GameConfig) :
    semanticErrors config =
      unknownChoiceIdErrors config ++ duplicateRuleErrors config ++
        payoffCountErrors config := by
  have h1 : ∀ (rules : List PayoffRule) (cids : List String) (init : List String),
      rules.foldl (fun errs rule =>
        let errs := if cids.contains rule.condition.player1 then errs else
          errs ++ ["Payoff rule references unknown choice ID: \"" ++
            rule.condition.player1 ++ "\""]
        if cids.contains rule.condition.player2 then errs else
          errs ++ ["Payoff rule references unknown choice ID: \"" ++
            rule.condition.player2 ++ "\""]) init
      = init ++ rules.flatMap (fun rule =>
          (if cids.contains rule.condition.player1 then [] else
            ["Payoff rule references unknown choice ID: \"" ++
              rule.condition.player1 ++ "\""]) ++
          (if cids.contains rule.condition.player2 then [] else
            ["Payoff rule references unknown choice ID: \"" ++
              rule.condition.player2 ++ "\""])) := by
    intro rules cids
    induction rules with
    | nil => intro init; simp
    | cons r rs ih =>
      intro init
      rw [List.foldl_cons]
      dsimp only
      rw [ih]
      by_cases hc1 : r.condition.player1 ∈ cids <;>
        by_cases hc2 : r.condition.player2 ∈ cids <;>
        simp [hc1, hc2]
  have h2 : ∀ (rules : List PayoffRule) (seen init : List String),
      (rules.foldl (fun (acc : List String × List String) rule =>
        let key := rule.condition.player1 ++ ":" ++ rule.condition.player2
        let errs := if acc.1.contains key then
            acc.2 ++ ["Duplicate payoff rule for combination: " ++ key]
          else acc.2
        (acc.1 ++ [key], errs)) (seen, init)).2
      = init ++ duplicateErrorsAux seen rules := by
    intro rules
    induction rules with
    | nil => intro seen init; simp [duplicateErrorsAux]
    | cons r rs ih =>
      intro seen init
      rw [List.foldl_cons]
      dsimp only
      rw [ih]
      by_cases hk : (r.condition.player1 ++ ":" ++ r.condition.player2) ∈ seen <;>
        simp [duplicateErrorsAux, hk]
  unfold semanticErrors unknownChoiceIdErrors duplicateRuleErrors payoffCountErrors
  dsimp only
  rw [h1, h2]
  by_cases hlen :
      config.payoffRules.length ≠ config.choices.length * config.choices.length <;>
    simp [hlen]

/-- Claim C3 (amended): the semantic validator accepts a configuration only
when its payoff table has exactly |choices| squared entries, and removing
any single entry from a configuration whose table has exactly that many
entries makes it reject, reporting the count mismatch (the error names the
expected and found counts, not the missing pair). -/
theorem payoff_table_exact_size :
    (∀ config : GameConfig, validateGameConfigSemantics config = .ok () →
      config.payoffRules.length = config.choices.length * config.choices.length)
    ∧ (∀ (config : GameConfig) (i : Nat), i < config.payoffRules.length →
      config.payoffRules.length = config.choices.length * config.choices.length →
      validateGameConfigSemantics
          { config with payoffRules := config.payoffRules.eraseIdx i } =
        .error ⟨"Game config semantic validation failed",
          semanticErrors { config with payoffRules := config.payoffRules.eraseIdx i },
          none⟩
      ∧ payoffCountMessage config.choices.length (config.payoffRules.length - 1) ∈
          semanticErrors { config with payoffRules := config.payoffRules.eraseIdx i }) := by
  constructor
  · intro config hok
    by_contra hne
    have hc : payoffCountErrors config =
        [payoffCountMessage config.choices.length config.payoffRules.length] := by
      simp [payoffCountErrors, hne]
    have hne2 : semanticErrors config ≠ [] := by
      rw [semanticErrors_decomposition config, hc]
      simp
    rw [validateGameConfigSemantics, if_pos hne2] at hok
    exact Except.noConfusion hok
  · intro config i hi hlen
    set cfg2 : GameConfig :=
      { config with payoffRules := config.payoffRules.eraseIdx i } with hcfg2
    have hlen2 : cfg2.payoffRules.length = config.payoffRules.length - 1 := by
      rw [hcfg2]
      simp [List.length_eraseIdx, hi]
    have hpos : 0 < config.payoffRules.length := Nat.lt_of_le_of_lt (Nat.zero_le i) hi
    have hne : cfg2.payoffRules.length ≠ cfg2.choices.length * cfg2.choices.length := by
      have : cfg2.choices.length = config.choices.length := by rw [hcfg2]
      rw [hlen2, this]
      omega
    have hc : payoffCountErrors cfg2 =
        [payoffCountMessage config.choices.length (config.payoffRules.length - 1)] := by
      rw [payoffCountErrors, if_pos hne]
      rw [hlen2]
    have hmem : payoffCountMessage config.choices.length (config.payoffRules.length - 1) ∈
        semanticErrors cfg2 := by
      rw [semanticErrors_decomposition cfg2, hc]
      simp
    have hne2 : semanticErrors cfg2 ≠ [] := by
      intro hnil
      rw [hnil] at hmem
      exact List.not_mem_nil _ hmem
    refine ⟨?_, hmem⟩
    rw [validateGameConfigSemantics, if_pos hne2]

/-- Witness for payoff_table_exact_size: the valid two-choice configuration
has exactly four entries, and removing its (rock, paper) entry makes the
validator reject with the count-mismatch error in its report. -/
theorem payoff_table_exact_size_witness :
    rpTwoConfig.payoffRules.length = rpTwoConfig.choices.length * rpTwoConfig.choices.length
    ∧ (validateGameConfigSemantics
          { rpTwoConfig with payoffRules := rpTwoConfig.payoffRules.eraseIdx 1 } =
        .error ⟨"Game config semantic validation failed",
          semanticErrors
            { rpTwoConfig with payoffRules := rpTwoConfig.payoffRules.eraseIdx 1 },
          none⟩
      ∧ payoffCountMessage rpTwoConfig.choices.length (rpTwoConfig.payoffRules.length - 1) ∈
          semanticErrors
            { rpTwoConfig with payoffRules := rpTwoConfig.payoffRules.eraseIdx 1 }) :=
  ⟨payoff_table_exact_size.1 rpTwoConfig (by decide),
   payoff_table_exact_size.2 rpTwoConfig 1 (by decide) (by decide)⟩

/-- Counterexample to claim C3 as stated: removing the (rock, paper) entry
from the valid two-choice configuration yields exactly one error, the
count-mismatch message, and that message mentions neither "rock" nor
"paper" — no error names the missing pair. -/
theorem payoff_missing_entry_error_lacks_pair :
    validateGameConfigSemantics rpTwoMissing =
      .error ⟨"Game config semantic validation failed", [payoffCountMessage 2 3], none⟩
    ∧ hasSubstr "rock".data (payoffCountMessage 2 3).data = false
    ∧ hasSubstr "paper".data (payoffCountMessage 2 3).data = false := by
  refine ⟨by decide, by decide, by decide⟩

/-- Claim C4 (amended): the three semantic check classes are each applied
and reported together in one pass (the error list is their concatenation),
but a structural (Zod) failure short-circuits loading: the report then
carries only the structural issues and the semantic checks never run. -/
theorem validation_reports_by_stage :
    (∀ config : GameConfig, semanticErrors config =
      unknownChoiceIdErrors config ++ duplicateRuleErrors config ++
        payoffCountErrors config)
    ∧ (∀ (config : GameConfig) (configPath : Option String),
      gameConfigSchemaIssues config ≠ [] →
      loadGameConfig config configPath =
        .error ⟨"Config validation failed: " ++ configPath.getD "unknown",
          gameConfigSchemaIssues config, configPath⟩)
    ∧ (∀ (config : GameConfig) (configPath : Option String),
      gameConfigSchemaIssues config = [] → semanticErrors config ≠ [] →
      loadGameConfig config configPath =
        .error ⟨"Game config semantic validation failed", semanticErrors config,
          none⟩) := by
  refine ⟨semanticErrors_decomposition, ?_, ?_⟩
  · intro config configPath hzod
    rw [loadGameConfig, if_pos hzod]
  · intro config configPath hzod hsem
    rw [loadGameConfig, if_neg (by simp [hzod]),
      validateGameConfigSemantics, if_pos hsem]

/-- Witness for validation_reports_by_stage at concrete configurations:
the one-choice document fails structurally and its report carries only the
structural issue, while the structurally valid three-entry document fails
with its semantic error list. -/
theorem validation_reports_by_stage_witness :
    semanticErrors oneChoiceConfig =
      unknownChoiceIdErrors oneChoiceConfig ++ duplicateRuleErrors oneChoiceConfig ++
        payoffCountErrors oneChoiceConfig
    ∧ loadGameConfig oneChoiceConfig none =
      .error ⟨"Config validation failed: unknown",
        gameConfigSchemaIssues oneChoiceConfig, none⟩
    ∧ loadGameConfig rpTwoMissing none =
      .error ⟨"Game config semantic validation failed", semanticErrors rpTwoMissing,
        none⟩ :=
  ⟨validation_reports_by_stage.1 oneChoiceConfig,
   validation_reports_by_stage.2.1 oneChoiceConfig none (by decide),
   validation_reports_by_stage.2.2 rpTwoMissing none (by decide) (by decide)⟩

/-- Counterexample to claim C4 as stated: the one-choice document violates
the duplicate-rule class and the table-size class as well as the
structural minimum, yet the loader's one-pass report contains only the
structural error — the other check classes were not reported. -/
theorem structural_failure_masks_semantic_errors :
    loadGameConfig oneChoiceConfig none =
      .error ⟨"Config validation failed: unknown",
        ["choices: Must have at least 2 choices"], none⟩
    ∧ duplicateRuleErrors oneChoiceConfig ≠ []
    ∧ payoffCountErrors oneChoiceConfig ≠ [] := by
  refine ⟨by decide, by decide, by decide⟩

theorem string_ne_empty_data {s : String} (h : s ≠ "") : s.data ≠ [] := by
  intro h0
  exact h (string_data_inj (by rw [h0]))

/-- A second concrete HMAC stand-in that echoes its input, so that distinct
inputs of equal length keep distinct tags. -/
def markStub (s : String) : String :=
  "x" ++ s

/-- A concrete decrypt stand-in for witnesses. -/
def stubDecrypt : String → Except String Nat :=
  fun _ => .ok 0

/-- Claim C1 (amended): a token whose payload or tag has any single byte
flipped is rejected, and no decryption is attempted on it — the pipeline
result is the same for every decrypt function.  verifySignedData throws
whenever the supplied signature differs from the recomputed HMAC of the
payload, and the failure class depends on the flipped byte: payload flips
(under the no-collision event the spec calls "probability effectively 1")
and tag flips to a character other than '.' fail with the integrity error;
a tag byte flipped to the separator '.' re-splits the token at the new
last dot, failing with the malformed empty-signature error when the flip
is at the last tag byte and with the integrity error on the re-split
halves otherwise (again under the no-collision event). -/
theorem tampered_token_rejected_before_decryption (hmac : String → String)
    (data : String) (hdata : data ≠ "") (hsig : hmac data ≠ "")
    (hdot : '.' ∉ (hmac data).data) :
    (∀ d sig, sig ≠ hmac d →
      verifySignedData hmac ⟨d, sig⟩ =
        .error ⟨"HMAC signature verification failed - data may have been tampered with"⟩)
    ∧ (∀ (i : Nat) (c : Char), c ≠ '.' →
      (hmac data).data.set i c ≠ (hmac data).data →
      ∀ {α : Type} (decrypt : String → Except String α),
        decodeThenDecrypt hmac decrypt
          (data ++ "." ++ String.mk ((hmac data).data.set i c)) =
          .error (.integrity
            ⟨"HMAC signature verification failed - data may have been tampered with"⟩))
    ∧ (∀ (i : Nat) (c : Char),
      hmac (String.mk (data.data.set i c)) ≠ hmac data →
      ∀ {α : Type} (decrypt : String → Except String α),
        decodeThenDecrypt hmac decrypt
          (String.mk (data.data.set i c) ++ "." ++ hmac data) =
          .error (.integrity
            ⟨"HMAC signature verification failed - data may have been tampered with"⟩))
    ∧ (∀ {α : Type} (decrypt : String → Except String α),
        decodeThenDecrypt hmac decrypt
          (data ++ "." ++
            String.mk ((hmac data).data.set ((hmac data).data.length - 1) '.')) =
          .error (.integrity ⟨"Invalid signed data format - empty data or signature"⟩))
    ∧ (∀ (i : Nat), i + 1 < (hmac data).data.length →
      String.mk ((hmac data).data.drop (i + 1)) ≠
        hmac (String.mk (data.data ++ '.' :: (hmac data).data.take i)) →
      ∀ {α : Type} (decrypt : String → Except String α),
        decodeThenDecrypt hmac decrypt
          (data ++ "." ++ String.mk ((hmac data).data.set i '.')) =
          .error (.integrity
            ⟨"HMAC signature verification failed - data may have been tampered with"⟩)) := by
  refine ⟨?_, ?_, ?_, ?_, ?_⟩
  · intro d sig hne
    have hv : verifyHMAC hmac d sig = false := by
      cases hveq : verifyHMAC hmac d sig with
      | false => rfl
      | true => exact absurd ((verifyHMAC_eq_true_iff hmac d sig).mp hveq) hne
    simp [verifySignedData, hv]
  · intro i c hc hset α decrypt
    have hdot2 : '.' ∉ (hmac data).data.set i c := by
      intro hmem
      rcases List.mem_or_eq_of_mem_set hmem with hmem2 | heqc
      · exact hdot hmem2
      · exact hc heqc.symm
    have hslen : (hmac data).data.set i c ≠ [] := by
      intro h0
      have hlen : ((hmac data).data.set i c).length = 0 := by rw [h0]; rfl
      rw [List.length_set] at hlen
      exact string_ne_empty_data hsig (List.length_eq_zero.mp hlen)
    have hbad : String.mk ((hmac data).data.set i c) ≠ hmac (String.mk data.data) := by
      intro heq
      exact hset (congrArg String.data heq)
    have hdec := decodeSignedData_bad_sig hmac data.data ((hmac data).data.set i c)
      (string_ne_empty_data hdata) hslen hdot2 hbad
    rw [show (data ++ "." ++ String.mk ((hmac data).data.set i c)) =
      String.mk (data.data ++ '.' :: (hmac data).data.set i c) from
      string_data_inj (by simp [string_append_data])]
    simp [decodeThenDecrypt, hdec]
  · intro i c hne α decrypt
    have hdlen : data.data.set i c ≠ [] := by
      intro h0
      have hlen : (data.data.set i c).length = 0 := by rw [h0]; rfl
      rw [List.length_set] at hlen
      exact string_ne_empty_data hdata (List.length_eq_zero.mp hlen)
    have hbad : String.mk (hmac data).data ≠ hmac (String.mk (data.data.set i c)) := by
      intro heq
      exact hne (heq.symm.trans rfl)
    have hdec := decodeSignedData_bad_sig hmac (data.data.set i c) (hmac data).data
      hdlen (string_ne_empty_data hsig) hdot hbad
    rw [show (String.mk (data.data.set i c) ++ "." ++ hmac data) =
      String.mk (data.data.set i c ++ '.' :: (hmac data).data) from
      string_data_inj (by simp [string_append_data])]
    simp [decodeThenDecrypt, hdec]
  · intro α decrypt
    have hn : 1 ≤ (hmac data).data.length := by
      cases hmk : (hmac data).data with
      | nil => exact absurd hmk (string_ne_empty_data hsig)
      | cons y ys => simp [hmk]
    have hset : (hmac data).data.set ((hmac data).data.length - 1) '.' =
        (hmac data).data.take ((hmac data).data.length - 1) ++ ['.'] := by
      rw [List.set_eq_take_append_cons_drop, if_pos (by omega)]
      rw [show (hmac data).data.length - 1 + 1 = (hmac data).data.length by omega]
      simp
    rw [hset]
    rw [show (data ++ "." ++
        String.mk ((hmac data).data.take ((hmac data).data.length - 1) ++ ['.'])) =
      String.mk ((data.data ++
        '.' :: (hmac data).data.take ((hmac data).data.length - 1)) ++ ['.']) from
      string_data_inj (by simp [string_append_data])]
    have hdec := decodeSignedData_empty_sig hmac
      (data.data ++ '.' :: (hmac data).data.take ((hmac data).data.length - 1))
    unfold decodeThenDecrypt
    rw [hdec]
  · intro i hi hbad α decrypt
    have hset : (hmac data).data.set i '.' =
        (hmac data).data.take i ++ '.' :: (hmac data).data.drop (i + 1) := by
      rw [List.set_eq_take_append_cons_drop, if_pos (by omega)]
    have hdot2 : '.' ∉ (hmac data).data.drop (i + 1) :=
      fun hmem => hdot (List.drop_subset _ _ hmem)
    have hd2 : data.data ++ '.' :: (hmac data).data.take i ≠ [] := by simp
    have hs2 : (hmac data).data.drop (i + 1) ≠ [] := by
      intro h0
      have hlen : ((hmac data).data.drop (i + 1)).length = 0 := by rw [h0]; rfl
      rw [List.length_drop] at hlen
      omega
    have hdec := decodeSignedData_bad_sig hmac
      (data.data ++ '.' :: (hmac data).data.take i)
      ((hmac data).data.drop (i + 1)) hd2 hs2 hdot2 hbad
    rw [hset]
    rw [show (data ++ "." ++
        String.mk ((hmac data).data.take i ++ '.' :: (hmac data).data.drop (i + 1))) =
      String.mk ((data.data ++ '.' :: (hmac data).data.take i) ++
        '.' :: (hmac data).data.drop (i + 1)) from
      string_data_inj (by simp [string_append_data])]
    unfold decodeThenDecrypt
    rw [hdec]

/-- Witness for tampered_token_rejected_before_decryption at the stand-in
hash markStub and payload "ab": a wrong signature is rejected; a tag flip
to a non-dot character and a payload flip yield the integrity error through
the pipeline with the concrete decrypt stub; a tag flip to '.' at the last
byte yields the malformed empty-signature error and at a non-last byte the
integrity error on the re-split halves. -/
theorem tampered_token_rejected_before_decryption_witness :
    verifySignedData markStub ⟨"ab", "zz"⟩ =
      .error ⟨"HMAC signature verification failed - data may have been tampered with"⟩
    ∧ decodeThenDecrypt markStub stubDecrypt
        ("ab" ++ "." ++ String.mk ((markStub "ab").data.set 0 'q')) =
      .error (.integrity
        ⟨"HMAC signature verification failed - data may have been tampered with"⟩)
    ∧ decodeThenDecrypt markStub stubDecrypt
        (String.mk ("ab".data.set 0 'z') ++ "." ++ markStub "ab") =
      .error (.integrity
        ⟨"HMAC signature verification failed - data may have been tampered with"⟩)
    ∧ decodeThenDecrypt markStub stubDecrypt
        ("ab" ++ "." ++
          String.mk ((markStub "ab").data.set ((markStub "ab").data.length - 1) '.')) =
      .error (.integrity ⟨"Invalid signed data format - empty data or signature"⟩)
    ∧ decodeThenDecrypt markStub stubDecrypt
        ("ab" ++ "." ++ String.mk ((markStub "ab").data.set 0 '.')) =
      .error (.integrity
        ⟨"HMAC signature verification failed - data may have been tampered with"⟩) :=
  ⟨(tampered_token_rejected_before_decryption markStub "ab" (by decide) (by decide)
      (by decide)).1 "ab" "zz" (by decide),
   (tampered_token_rejected_before_decryption markStub "ab" (by decide) (by decide)
      (by decide)).2.1 0 'q' (by decide) (by decide) stubDecrypt,
   (tampered_token_rejected_before_decryption markStub "ab" (by decide) (by decide)
      (by decide)).2.2.1 0 'z' (by decide) stubDecrypt,
   (tampered_token_rejected_before_decryption markStub "ab" (by decide) (by decide)
      (by decide)).2.2.2.1 stubDecrypt,
   (tampered_token_rejected_before_decryption markStub "ab" (by decide) (by decide)
      (by decide)).2.2.2.2 0 (by decide) (by decide) stubDecrypt⟩

/-- Counterexample to claim C1 as stated: flipping the last tag byte to the
separator character '.' makes the decoder re-split the token at that new
last dot, leaving an empty signature half, so decoding throws the
malformed empty-signature error before any HMAC verification is reached —
not the integrity error the claim asserts for every single-byte flip. -/
theorem tag_flip_to_separator_escapes_integrity_check :
    decodeSignedData markStub
        ("ab" ++ "." ++ String.mk ((markStub "ab").data.set 2 '.')) =
      .error ⟨"Invalid signed data format - empty data or signature"⟩
    ∧ decodeSignedData markStub
        ("ab" ++ "." ++ String.mk ((markStub "ab").data.set 2 '.')) ≠
      .error ⟨"HMAC signature verification failed - data may have been tampered with"⟩ := by
  refine ⟨by decide, by decide⟩

/-- Claim C2: decoding inverts encoding exactly.  The library primitives
are hypotheses: base64, AES and compression round-trip, serialization
round-trips on the snapshot, and the intermediate strings are non-empty (a
JSON object and its compressed form are never empty). -/
theorem encode_decode_roundtrip {α : Type} (stringify : α → String)
    (parse : String → Option α) (compress : String → String)
    (decompress : String → Option String) (aesEncrypt aesDecrypt : String → String)
    (btoa atob : String → String) (s : α)
    (hb : ∀ x, atob (btoa x) = x)
    (he : ∀ x, aesDecrypt (aesEncrypt x) = x)
    (hc : ∀ x, decompress (compress x) = some x)
    (hp : parse (stringify s) = some s)
    (hjson : stringify s ≠ "")
    (hcomp : compress (stringify s) ≠ "") :
    decryptGameState parse decompress aesDecrypt atob
      (encryptGameState stringify compress aesEncrypt btoa s) = .ok s := by
  unfold decryptGameState encryptGameState
  simp only [hb, he, hc]
  simp [hjson, hcomp, hp]

/-- Identity string function used as concrete compress, encrypt and base64
stand-ins in witnesses. -/
def idString : String → String := fun s => s

/-- Concrete decompress stand-in. -/
def someString : String → Option String := fun s => some s

/-- Concrete stringify stand-in. -/
def stubStringify : Nat → String := fun _ => "j"

/-- Concrete parse stand-in. -/
def stubParse : String → Option Nat := fun _ => some 0

/-- Witness for encode_decode_roundtrip with concrete stand-ins whose
round-trip hypotheses hold definitionally. -/
theorem encode_decode_roundtrip_witness :
    decryptGameState stubParse someString idString idString
      (encryptGameState stubStringify idString idString idString 0) = .ok 0 :=
  encode_decode_roundtrip stubStringify stubParse idString someString idString
    idString idString idString 0 (fun _ => rfl) (fun _ => rfl) (fun _ => rfl)
    rfl (by decide) (by decide)

/-- Claim C9 (amended): signing then encoding then decoding returns the
original data for every non-empty data string, including strings containing
the '.' separator, because the decoder splits on the last dot and the
hex-encoded signature is non-empty and contains no dot.  The data string
must be non-empty: the decoder rejects an empty data half. -/
theorem sign_encode_decode_roundtrip (hmac : String → String) (d : String)
    (hd : d ≠ "") (hs : hmac d ≠ "") (hdot : '.' ∉ (hmac d).data) :
    decodeSignedData hmac (encodeSignedData (signData hmac d)) = .ok d := by
  unfold encodeSignedData signData generateHMAC
  rw [show (d ++ "." ++ hmac d) = String.mk (d.data ++ '.' :: (hmac d).data) from
    string_data_inj (by simp [string_append_data])]
  unfold decodeSignedData
  simp only [splitAtLastDot_append d.data (hmac d).data hdot]
  have e1 : String.mk d.data = d := rfl
  have e2 : String.mk (hmac d).data = hmac d := rfl
  rw [e1, e2]
  have hv : verifyHMAC hmac d (hmac d) = true :=
    (verifyHMAC_eq_true_iff hmac d (hmac d)).mpr rfl
  simp [verifySignedData, hv, hd, hs]

/-- Witness for sign_encode_decode_roundtrip: a data string containing the
separator round-trips under the dot-free stand-in hash hexStub. -/
theorem sign_encode_decode_roundtrip_witness :
    decodeSignedData hexStub (encodeSignedData (signData hexStub "hello.world")) =
      .ok "hello.world" :=
  sign_encode_decode_roundtrip hexStub "hello.world" (by decide) (by decide) (by decide)

/-- Counterexample to claim C9 as stated: for the empty data string the
decoder rejects the encoded token — the data half before the separator is
empty — so the round-trip does not hold for every string. -/
theorem sign_roundtrip_fails_on_empty_data :
    decodeSignedData hexStub (encodeSignedData (signData hexStub "")) =
      .error ⟨"Invalid signed data format - empty data or signature"⟩ := by
  decide

end RPS
